import Mathlib

/-!
Verification of the Brave Search agent repository
(`iterations/v3-mcp-support/brave_search_agent`).

Shallow embedding of the Python source:
* `agent_tools.py` — `fetch_search_results`, `fetch_page_content`,
  `search_with_pagination`;
* `agent.py` — the tool shims `get_page_content`, `summarize_search_results`;
* `main.py` — `run_agent_with_retry`.

JSON bodies are modelled by the inductive `JVal`; Python dictionaries by
association lists with unique first occurrence (`getKey` reads the first
binding, `setKey` overwrites it in place, exactly as a `dict` does).
HTTP traffic is modelled by explicit outcome types (`HttpOutcome`,
`PageOutcome`), and the external agent runtime by a function from the
attempt index to a success-or-failure outcome.
-/

namespace Archon

/-- A JSON value, as produced by `response.json()`. -/
inductive JVal where
  | str  : String → JVal
  | num  : Int → JVal
  | bool : Bool → JVal
  | null : JVal
  | arr  : List JVal → JVal
  | obj  : List (String × JVal) → JVal

/-- A JSON object / Python `dict`: an association list whose first
binding for a key is the authoritative one. -/
abbrev Dict := List (String × JVal)

/-- `d[k]` lookup of a Python dict: the first binding of `k`, if any. -/
def getKey (d : Dict) (k : String) : Option JVal :=
  match d with
  | [] => none
  | (k', v) :: rest => if k' == k then some v else getKey rest k

/-- `d[k] = v` assignment of a Python dict: overwrite the first binding of
`k` in place, or append a new binding at the end (insertion order). -/
def setKey (d : Dict) (k : String) (v : JVal) : Dict :=
  match d with
  | [] => [(k, v)]
  | (k', v') :: rest => if k' == k then (k, v) :: rest else (k', v') :: setKey rest k v

/-- Python's `k in d` membership test on a dict. -/
def hasKey (d : Dict) (k : String) : Bool :=
  (getKey d k).isSome

/- ### Basic dictionary lemmas -/

theorem getKey_setKey_self (d : Dict) (k : String) (v : JVal) :
    getKey (setKey d k v) k = some v := by
  induction d with
  | nil => simp [getKey, setKey]
  | cons hd tl ih =>
    obtain ⟨k', v'⟩ := hd
    by_cases h : k' = k
    · simp [getKey, setKey, h]
    · simp [getKey, setKey, h, ih]

theorem getKey_setKey_ne (d : Dict) (k k' : String) (v : JVal) (h : k' ≠ k) :
    getKey (setKey d k v) k' = getKey d k' := by
  induction d with
  | nil => simp [getKey, setKey, Ne.symm h]
  | cons hd tl ih =>
    obtain ⟨k₀, v₀⟩ := hd
    by_cases h0 : k₀ = k
    · subst h0
      simp [getKey, setKey, Ne.symm h]
    · by_cases h1 : k₀ = k'
      · simp [getKey, setKey, h0, h1, h]
      · simp [getKey, setKey, h0, h1, ih]

theorem setKey_self (d : Dict) (k : String) (v : JVal) (h : getKey d k = some v) :
    setKey d k v = d := by
  induction d with
  | nil => simp [getKey] at h
  | cons hd tl ih =>
    obtain ⟨k', v'⟩ := hd
    by_cases h0 : k' = k
    · subst h0
      simp [getKey] at h
      simp [setKey, h]
    · simp [getKey, h0] at h
      simp [setKey, h0, ih h]

/- ### HTTP outcomes

The HTTP layer (`httpx`) is external; an individual GET is modelled by its
observable outcome.  `resp status text body` is a completed response with
the given status code, raw text, and the result of attempting to parse the
text as JSON (`Except.error` when `response.json()` would raise);
`requestError` is an `httpx.RequestError` transport fault; and
`unexpectedError` stands for any other exception raised by the call. -/
inductive HttpOutcome where
  | resp (status : Nat) (text : String) (body : Except String JVal)
  | requestError (msg : String)
  | unexpectedError (msg : String)

/-- The error envelope `{"error": msg, "web": {"results": []}}` built by
`fetch_search_results` on every failure path. -/
def errorEnvelope (msg : String) : JVal :=
  .obj [("error", .str msg), ("web", .obj [("results", .arr [])])]

/-- `agent_tools.fetch_search_results` (lines 14–82): on status 200 return
the parsed JSON body unchanged; on non-200 status, an
`httpx.RequestError`, or any other exception (including a JSON decode
failure of a 200 body), return an error envelope with an empty result
list.  The three handler messages are prefixed exactly as in the source. -/
def fetch_search_results (r : HttpOutcome) : JVal :=
  match r with
  | .resp status text body =>
    if status == 200 then
      match body with
      | .ok j => j
      | .error e => errorEnvelope ("Unexpected error: " ++ e)
    else
      errorEnvelope ("Brave API error: " ++ toString status ++ " - " ++ text)
  | .requestError e => errorEnvelope ("Request error: " ++ e)
  | .unexpectedError e => errorEnvelope ("Unexpected error: " ++ e)

/-- Top-level `error` field of a JSON value, when it is an object. -/
def envError (j : JVal) : Option JVal :=
  match j with
  | .obj fields => getKey fields "error"
  | _ => none

/-- The `web.results` list of a JSON value, when the shape matches. -/
def envWebResults (j : JVal) : Option (List JVal) :=
  match j with
  | .obj fields =>
    match getKey fields "web" with
    | some (.obj w) =>
      match getKey w "results" with
      | some (.arr rs) => some rs
      | _ => none
    | _ => none
  | _ => none

/- ### Page fetching -/

/-- Outcome of the page-retrieval GET (no JSON parsing is involved). -/
inductive PageOutcome where
  | resp (status : Nat) (text : String)
  | requestError (msg : String)
  | unexpectedError (msg : String)

/-- `agent_tools.fetch_page_content` (lines 84–122): the raw text body on
status 200, the empty string on any non-200 status or any exception. -/
def fetch_page_content (r : PageOutcome) : String :=
  match r with
  | .resp status text => if status == 200 then text else ""
  | .requestError _ => ""
  | .unexpectedError _ => ""

/-- `needle` occurs starting at the head of `hay`. -/
def substrAt (needle hay : List Char) : Bool :=
  match needle, hay with
  | [], _ => true
  | _ :: _, [] => false
  | c :: cs, d :: ds => c == d && substrAt cs ds

/-- `needle` occurs somewhere in `hay`. -/
def hasSubstr (needle hay : List Char) : Bool :=
  match hay with
  | [] => substrAt needle []
  | _ :: rest => substrAt needle hay || hasSubstr needle rest

/-- Python's `needle in hay` substring test on strings. -/
def pyIn (needle hay : String) : Bool :=
  hasSubstr needle.toList hay.toList

/-- `agent.get_page_content` (lines 66–90): calls `fetch_page_content` and
then runs `if "error" in content:` — on a string this is a *substring*
test.  When it fires, the branch evaluates `content['error']` inside the
log call, which raises `TypeError` (string indices must be integers); the
surrounding `except Exception` handler then returns `""`.  Either way the
tool returns `""` whenever the fetched text contains `"error"`. -/
def get_page_content (r : PageOutcome) : String :=
  let content := fetch_page_content r
  if pyIn "error" content then "" else content

/- ### Retry-wrapped invocation loop (`main.run_agent_with_retry`) -/

/-- Outcome of one invocation of the external agent runtime
(`brave_search_agent.run`): a result value or a raised exception. -/
inductive RunOutcome (α : Type) where
  | ok (res : α)
  | err (msg : String)

/-- Observable result of `run_agent_with_retry`: either the successful
result together with the message history and the number of runtime
invocations and `asyncio.sleep(1)` calls performed, or the re-raised
`last_error` (which is still `none` when the loop body never ran). -/
inductive RetryResult (α : Type) where
  | success (res : α) (history : List (String × String)) (attempts sleeps : Nat)
  | raised (lastError : Option String) (attempts sleeps : Nat)

/-- The `while retries < max_retries` loop of `main.run_agent_with_retry`
(lines 37–54), iterated on the remaining budget `(max_retries - retries)`:
invoke the runtime with the current attempt index; on success return
`(result, message_history)`; on failure record the error, and sleep one
time unit only when another attempt is still allowed.  When the budget is
exhausted, re-raise the last captured error. -/
def retryLoopAux {α : Type} (runAgent : Nat → RunOutcome α)
    (history : List (String × String)) :
    Nat → Nat → Nat → Option String → RetryResult α
  | 0, retries, sleeps, lastErr => .raised lastErr retries sleeps
  | remaining + 1, retries, sleeps, _lastError =>
    match runAgent retries with
    | .ok res => .success res history (retries + 1) sleeps
    | .err e =>
      retryLoopAux runAgent history remaining (retries + 1)
        (if remaining == 0 then sleeps else sleeps + 1) (some e)

/-- `main.run_agent_with_retry` (lines 18–54).  `messageHistory = none`
models the `None` default, replaced by `[]`; `maxRetries` is a Python
integer, so the loop runs `max(maxRetries, 0)` times starting from
`retries = 0` with `last_error = None`. -/
def run_agent_with_retry {α : Type} (runAgent : Nat → RunOutcome α)
    (messageHistory : Option (List (String × String))) (maxRetries : Int) :
    RetryResult α :=
  retryLoopAux runAgent (messageHistory.getD []) maxRetries.toNat 0 0 none

/- ### Claim C7 -/

/-- C7: with `max_retries = 3`, a runtime that fails on attempts 0 and 1
and succeeds on attempt 2 makes the loop return that successful result
together with the history after exactly 3 invocations (never a fourth),
having slept twice (once between each pair of consecutive attempts); a
runtime that fails on all three attempts makes the loop re-raise the last
captured failure after exactly 3 invocations and 2 unit sleeps. -/
theorem c7_retry_three_attempts {α : Type} (runAgent : Nat → RunOutcome α)
    (hist : Option (List (String × String))) (e0 e1 : String)
    (h0 : runAgent 0 = .err e0) (h1 : runAgent 1 = .err e1) :
    (∀ r : α, runAgent 2 = .ok r →
      run_agent_with_retry runAgent hist 3 = .success r (hist.getD []) 3 2) ∧
    (∀ e2 : String, runAgent 2 = .err e2 →
      run_agent_with_retry runAgent hist 3 = .raised (some e2) 3 2) := by
  constructor
  · intro r h2
    simp [run_agent_with_retry, retryLoopAux, h0, h1, h2]
  · intro e2 h2
    simp [run_agent_with_retry, retryLoopAux, h0, h1, h2]

/-- Concrete instantiation of `c7_retry_three_attempts`: a runtime failing
on attempts 0 and 1 and succeeding with `7` on attempt 2, and one failing
on every attempt. -/
theorem c7_retry_three_attempts_witness :
    run_agent_with_retry
        (fun n => if n < 2 then RunOutcome.err ("boom " ++ toString n)
                  else RunOutcome.ok (7 : Nat)) none 3
      = RetryResult.success 7 [] 3 2 ∧
    run_agent_with_retry
        (fun n => (RunOutcome.err ("boom " ++ toString n) : RunOutcome Nat)) none 3
      = RetryResult.raised (some "boom 2") 3 2 :=
  ⟨(c7_retry_three_attempts _ none "boom 0" "boom 1" rfl rfl).1 7 rfl,
   (c7_retry_three_attempts _ none "boom 0" "boom 1" rfl rfl).2 "boom 2" rfl⟩

/- ### Claim C10 -/

/-- C10: with `max_retries ≤ 0` the `while` condition `retries <
max_retries` is false at once, so the runtime is never invoked (0
attempts, 0 sleeps) and the function reaches `raise last_error` with
`last_error` still the initial `None` — not an agent fault. -/
theorem c10_retry_nonpositive {α : Type} (runAgent : Nat → RunOutcome α)
    (hist : Option (List (String × String))) (maxRetries : Int)
    (h : maxRetries ≤ 0) :
    run_agent_with_retry runAgent hist maxRetries = .raised none 0 0 := by
  have hz : maxRetries.toNat = 0 := Int.toNat_of_nonpos h
  simp [run_agent_with_retry, hz, retryLoopAux]

/-- Concrete instantiation of `c10_retry_nonpositive` at
`max_retries = 0` and at `max_retries = -2`. -/
theorem c10_retry_nonpositive_witness :
    run_agent_with_retry (fun _ => RunOutcome.ok (1 : Nat)) none 0
      = RetryResult.raised none 0 0 ∧
    run_agent_with_retry (fun _ => RunOutcome.ok (1 : Nat)) none (-2)
      = RetryResult.raised none 0 0 :=
  ⟨c10_retry_nonpositive _ none 0 (by decide),
   c10_retry_nonpositive _ none (-2) (by decide)⟩

/- ### Claim C8 -/

/-- C8: for every non-200 response of the search endpoint and for every
transport-level fault, `fetch_search_results` returns (never raises) an
envelope whose `error` field is a non-empty string and whose
`web.results` list is empty. -/
theorem c8_search_fetcher_error_envelope :
    (∀ (status : Nat) (text : String) (body : Except String JVal),
      status ≠ 200 →
      ∃ m : String,
        envError (fetch_search_results (.resp status text body)) = some (.str m) ∧
        m ≠ "" ∧
        envWebResults (fetch_search_results (.resp status text body)) = some []) ∧
    (∀ msg : String,
      ∃ m : String,
        envError (fetch_search_results (.requestError msg)) = some (.str m) ∧
        m ≠ "" ∧
        envWebResults (fetch_search_results (.requestError msg)) = some []) := by
  constructor
  · intro status text body hs
    refine ⟨"Brave API error: " ++ toString status ++ " - " ++ text, ?_, ?_, ?_⟩
    · simp [fetch_search_results, hs, errorEnvelope, envError, getKey]
    · intro hcontra
      have hlen : ("Brave API error: " ++ toString status ++ " - " ++ text).length = 0 := by
        rw [hcontra]; rfl
      have hb : ("Brave API error: " : String).length = 17 := rfl
      rw [String.length_append, String.length_append, String.length_append, hb] at hlen
      omega
    · simp [fetch_search_results, hs, errorEnvelope, envWebResults, getKey]
  · intro msg
    refine ⟨"Request error: " ++ msg, ?_, ?_, ?_⟩
    · simp [fetch_search_results, errorEnvelope, envError, getKey]
    · intro hcontra
      have hlen : ("Request error: " ++ msg).length = 0 := by rw [hcontra]; rfl
      have hb : ("Request error: " : String).length = 15 := rfl
      rw [String.length_append, hb] at hlen
      omega
    · simp [fetch_search_results, errorEnvelope, envWebResults, getKey]

/-- Concrete instantiation of `c8_search_fetcher_error_envelope`: a 429
response and a timeout-style transport fault. -/
theorem c8_search_fetcher_error_envelope_witness :
    (∃ m : String,
      envError (fetch_search_results (.resp 429 "rate limited" (.error "x"))) = some (.str m) ∧
      m ≠ "" ∧
      envWebResults (fetch_search_results (.resp 429 "rate limited" (.error "x"))) = some []) ∧
    (∃ m : String,
      envError (fetch_search_results (.requestError "timeout")) = some (.str m) ∧
      m ≠ "" ∧
      envWebResults (fetch_search_results (.requestError "timeout")) = some []) :=
  ⟨(c8_search_fetcher_error_envelope.1 429 "rate limited" (.error "x") (by decide)),
   (c8_search_fetcher_error_envelope.2 "timeout")⟩

/- ### Claim C1 (code bug) -/

/-- C1: the claim says `get_page_content` returns the page's raw textual
body verbatim whenever the GET succeeds with status 200, and returns `""`
only on a failure signal.  The code violates this: the tool applies
Python's `"error" in content` *substring* test to the fetched text (a
dict-membership check pasted onto a string), so a 200 response whose body
merely contains the word "error" is silently replaced by `""` even though
`fetch_page_content` returned the full body. -/
theorem c1_get_page_content_drops_error_bodies :
    fetch_page_content (.resp 200 "an error occurred in 1962") = "an error occurred in 1962" ∧
    get_page_content (.resp 200 "an error occurred in 1962") = "" ∧
    get_page_content (.resp 200 "fine page") = "fine page" ∧
    get_page_content (.resp 404 "missing") = "" := by
  refine ⟨rfl, ?_, ?_, rfl⟩ <;> decide

/- ### `agent.summarize_search_results` -/

/-- Python truthiness of a JSON value (`not v` is true exactly on the
falsy values: `""`, `0`, `False`, `None`, `[]`, `{}`). -/
def jvalFalsy : JVal → Bool
  | .str s => s == ""
  | .num n => n == 0
  | .bool b => !b
  | .null => true
  | .arr xs => xs.isEmpty
  | .obj fs => fs.isEmpty

/-- Python `str(v)` as applied by an f-string to a field value.  Only the
atomic cases are exercised by well-formed search results; the container
cases abbreviate Python's repr, which no claim depends on. -/
def pyStr : JVal → String
  | .str s => s
  | .num n => toString n
  | .bool b => if b then "True" else "False"
  | .null => "None"
  | .arr _ => "<list>"
  | .obj _ => "<dict>"

/-- `result.get(key, default)` followed by f-string formatting. -/
def itemField (item : Dict) (key dflt : String) : String :=
  match getKey item key with
  | some v => pyStr v
  | none => dflt

/-- The `for i, result in enumerate(web_results, 1)` body of
`summarize_search_results`: one numbered block per item.  A non-dict item
makes `result.get` raise `AttributeError`, which the handler converts to
the overall return value `""` — modelled by `none`. -/
def formatItems (items : List JVal) (i : Nat) : Option String :=
  match items with
  | [] => some ""
  | item :: rest =>
    match item with
    | .obj fields =>
      match formatItems rest (i + 1) with
      | some s =>
        some ("### " ++ toString i ++ ". " ++ itemField fields "title" "No title" ++ "\n" ++
              "**URL**: " ++ itemField fields "url" "No URL" ++ "\n" ++
              "**Description**: " ++ itemField fields "description" "No description" ++ "\n\n" ++ s)
      | none => none
    | _ => none

/-- `agent.summarize_search_results` (lines 92–123): the guard is
`if not results or not results.get('web', {}).get('results'):`.  When the
`web` value is present but not a dict, `.get('results')` raises
`AttributeError` and the `except Exception` handler returns `""`; the same
handler yields `""` when iteration over a truthy non-list `results` value
or over a non-dict item raises. -/
def summarize_search_results (results : Dict) : String :=
  if results.isEmpty then "No search results found."
  else
    match (getKey results "web").getD (.obj []) with
    | .obj w =>
      match getKey w "results" with
      | none => "No search results found."
      | some v =>
        if jvalFalsy v then "No search results found."
        else
          match v with
          | .arr items =>
            match formatItems items 1 with
            | some s => "## Search Results\n\n" ++ s
            | none => ""
          | _ => ""
    | _ => ""

/- ### Claim C9 -/

/-- C9 counterexample: the input `{"web": 5}` has no `web.results` list at
all, yet `summarize_search_results` returns `""` rather than
"No search results found.": the guard evaluates `(5).get('results')`,
which raises `AttributeError`, and the exception handler returns `""`. -/
theorem c9_counterexample_web_not_dict :
    summarize_search_results [("web", JVal.num 5)] = "" ∧
    summarize_search_results [("web", JVal.num 5)] ≠ "No search results found." :=
  ⟨rfl, by decide⟩

/-- C9 amended: for every input that is the empty dictionary, or whose
`web` key is absent, or whose `web` value is a dictionary in which the
`results` key is absent or maps to an empty list,
`summarize_search_results` returns exactly "No search results found.".
(When `web` is present but not a dictionary the function returns `""`
instead, as the counterexample shows.) -/
theorem c9_no_results_message (results : Dict)
    (h : results = [] ∨ getKey results "web" = none ∨
         ∃ w : Dict, getKey results "web" = some (.obj w) ∧
           (getKey w "results" = none ∨ getKey w "results" = some (.arr []))) :
    summarize_search_results results = "No search results found." := by
  rcases h with h | h | ⟨w, hw, hr⟩
  · subst h; rfl
  · by_cases he : results.isEmpty
    · simp [summarize_search_results, he]
    · simp [summarize_search_results, he, h, getKey]
  · by_cases he : results.isEmpty
    · simp [summarize_search_results, he]
    · rcases hr with hr | hr
      · simp [summarize_search_results, he, hw, hr]
      · simp [summarize_search_results, he, hw, hr, jvalFalsy]

/-- Concrete instantiations of `c9_no_results_message`: the empty
dictionary and an envelope with an explicit empty result list. -/
theorem c9_no_results_message_witness :
    summarize_search_results [] = "No search results found." ∧
    summarize_search_results [("web", JVal.obj [("results", JVal.arr [])])]
      = "No search results found." :=
  ⟨c9_no_results_message [] (Or.inl rfl),
   c9_no_results_message _
     (Or.inr (Or.inr ⟨[("results", JVal.arr [])], rfl, Or.inr rfl⟩))⟩

/- ### `agent_tools.search_with_pagination` -/

/-- Outcome of one `await fetch_search_results(...)` call inside the page
loop, as the aggregator observes it: either the returned envelope (a JSON
object, per the search API contract of the spec — `fetch_search_results`
itself never raises), or an exception escaping the call, which lands in
the per-page `except Exception` handler (lines 196–202). -/
inductive FetchOutcome where
  | envelope (pr : Dict)
  | raised (msg : String)

/-- The envelope built by the per-page exception handler when page 0
raises: `{"error": f"Error in pagination: {e}", "web": {"results": []}}`. -/
def mkPaginationError (msg : String) : Dict :=
  [("error", .str ("Error in pagination: " ++ msg)), ("web", .obj [("results", .arr [])])]

/-- The initial accumulator `all_results = {"web": {"results": []}}`. -/
def initialAgg : Dict :=
  [("web", .obj [("results", .arr [])])]

/-- Lookup of `acc["web"][k]` when `acc["web"]` is a dict. -/
def webGet (acc : Dict) (k : String) : Option JVal :=
  match getKey acc "web" with
  | some (.obj w) => getKey w k
  | _ => none

/-- The list `all_results["web"]["results"]` (empty for shapes the
aggregator never constructs). -/
def aggResults (acc : Dict) : List JVal :=
  match webGet acc "results" with
  | some (.arr rs) => rs
  | _ => []

/-- In-place replacement of `all_results["web"]["results"]`, modelling
both `.extend(...)` and the truncating slice assignment. -/
def setAggResults (acc : Dict) (rs : List JVal) : Dict :=
  match getKey acc "web" with
  | some (.obj w) => setKey acc "web" (.obj (setKey w "results" (.arr rs)))
  | _ => acc

/-- The page-0 metadata copy
`for key, value in page_results.items(): if key != "web": all_results[key] = value`. -/
def copyTopMeta (acc : Dict) (pr : Dict) : Dict :=
  pr.foldl (fun a kv => if kv.1 == "web" then a else setKey a kv.1 kv.2) acc

/-- `all_results["web"][k] = v` (no-op on shapes the aggregator never
constructs). -/
def setWebKey (acc : Dict) (k : String) (v : JVal) : Dict :=
  match getKey acc "web" with
  | some (.obj w) => setKey acc "web" (.obj (setKey w k v))
  | _ => acc

/-- The page-0 web-metadata copy
`for key, value in page_results["web"].items(): if key != "results": all_results["web"][key] = value`. -/
def copyWebMeta (acc : Dict) (prWeb : Dict) : Dict :=
  prWeb.foldl (fun a kv => if kv.1 == "results" then a else setWebKey a kv.1 kv.2) acc

/-- The merge block of one loop iteration (lines 176–189): when
`"web" in page_results and "results" in page_results["web"]`, the page's
result items are appended to the accumulated list and, on page 0 only,
the top-level and `web`-object metadata of the page are copied in.
Envelopes are JSON objects; a `web` value that is not an object, or a
`results` value that is not an array, never arises from the search API
and is modelled as contributing nothing. -/
def pageMerge (acc : Dict) (pr : Dict) (page : Nat) : Dict :=
  match getKey pr "web" with
  | some (.obj prWeb) =>
    match getKey prWeb "results" with
    | some (.arr newRs) =>
      let acc3 := setAggResults acc (aggResults acc ++ newRs)
      if page == 0 then copyWebMeta (copyTopMeta acc3 pr) prWeb else acc3
    | _ => acc
  | _ => acc

/-- The `for page in range(num_pages)` loop of `search_with_pagination`
(lines 154–204), recursing on the number of pages still allowed, with the
merge block factored out as `pageMerge`.  It also threads the list of
requests issued so far, each recorded as `(count, offset) = (10, page)` —
exactly the arguments passed to `fetch_search_results`. -/
def searchLoop (fetch : Nat → FetchOutcome) (maxResults : Nat) :
    Nat → Nat → Dict → List (Nat × Nat) → Dict × List (Nat × Nat)
  | 0, _page, acc, reqs => (acc, reqs)
  | rem + 1, page, acc, reqs =>
    let reqs2 := reqs ++ [(10, page)]
    match fetch page with
    | .raised msg =>
      if page == 0 then (mkPaginationError msg, reqs2) else (acc, reqs2)
    | .envelope pr =>
      if hasKey pr "error" then
        if page == 0 then (pr, reqs2) else (acc, reqs2)
      else
        let acc2 := pageMerge acc pr page
        if maxResults ≤ (aggResults acc2).length then
          (setAggResults acc2 ((aggResults acc2).take maxResults), reqs2)
        else
          searchLoop fetch maxResults rem (page + 1) acc2 reqs2

/-- `agent_tools.search_with_pagination` (lines 124–208): fixed page size
10, `num_pages = ceil(max_results / 10)` via
`(max_results + results_per_page - 1) // results_per_page`, pages fetched
with `offset = page` starting from the empty accumulator.  Returns the
final envelope together with the trace of `(count, offset)` requests. -/
def search_with_pagination (fetch : Nat → FetchOutcome) (maxResults : Nat) :
    Dict × List (Nat × Nat) :=
  let results_per_page := 10
  let num_pages := (maxResults + results_per_page - 1) / results_per_page
  searchLoop fetch maxResults num_pages 0 initialAgg []

/-- `ceil(maxResults / 10)`, the page budget of the aggregator. -/
def numPages (maxResults : Nat) : Nat :=
  (maxResults + 10 - 1) / 10

theorem search_with_pagination_def (fetch : Nat → FetchOutcome) (maxResults : Nat) :
    search_with_pagination fetch maxResults =
      searchLoop fetch maxResults (numPages maxResults) 0 initialAgg [] := rfl

/-- The request trace of the first `k` pages: page `j` is fetched with
`count = 10` and `offset = j`. -/
def pageReqs : Nat → List (Nat × Nat)
  | 0 => []
  | k + 1 => pageReqs k ++ [(10, k)]

/-- Concatenation of the per-page result lists of the first `i` pages. -/
def concatRs (rs : Nat → List JVal) : Nat → List JVal
  | 0 => []
  | i + 1 => concatRs rs i ++ rs i

/- ### Claim C2 -/

/-- C2: when fetching page 0 yields an error — the fetched envelope
contains an `error` key, or the fetch itself raises — the aggregator
returns page 0's error envelope exactly (the fetched envelope itself,
or the pagination-error envelope built for the raised exception, whose
result list is empty), with no results accumulated and no further page
fetched. -/
theorem c2_page0_error_is_terminal (fetch : Nat → FetchOutcome) (maxResults : Nat)
    (hmax : 1 ≤ maxResults) :
    (∀ pr : Dict, fetch 0 = .envelope pr → hasKey pr "error" = true →
      search_with_pagination fetch maxResults = (pr, [(10, 0)])) ∧
    (∀ msg : String, fetch 0 = .raised msg →
      search_with_pagination fetch maxResults = (mkPaginationError msg, [(10, 0)])) := by
  have hnp : ∃ m : Nat, numPages maxResults = m + 1 := by
    refine ⟨numPages maxResults - 1, ?_⟩
    have : 1 ≤ numPages maxResults := by
      unfold numPages; omega
    omega
  obtain ⟨m, hm⟩ := hnp
  constructor
  · intro pr h0 herr
    rw [search_with_pagination_def, hm]
    simp [searchLoop, h0, herr]
  · intro msg h0
    rw [search_with_pagination_def, hm]
    simp [searchLoop, h0]

/-- Concrete instantiation of `c2_page0_error_is_terminal`: a page-0
envelope carrying an `error` field (with a stale result item, returned
untouched), and a page-0 fetch that raises. -/
theorem c2_page0_error_is_terminal_witness :
    search_with_pagination
        (fun _ => FetchOutcome.envelope
          [("error", JVal.str "boom"), ("web", JVal.obj [("results", JVal.arr [JVal.null])])])
        30
      = ([("error", JVal.str "boom"), ("web", JVal.obj [("results", JVal.arr [JVal.null])])],
         [(10, 0)]) ∧
    search_with_pagination (fun _ => FetchOutcome.raised "conn reset") 30
      = (mkPaginationError "conn reset", [(10, 0)]) :=
  ⟨(c2_page0_error_is_terminal _ 30 (by decide)).1 _ rfl rfl,
   (c2_page0_error_is_terminal _ 30 (by decide)).2 "conn reset" rfl⟩

/- ### Supporting lemmas about the accumulator operations -/

theorem setKey_setKey (d : Dict) (k : String) (v1 v2 : JVal) :
    setKey (setKey d k v1) k v2 = setKey d k v2 := by
  induction d with
  | nil => simp [setKey]
  | cons hd tl ih =>
    obtain ⟨k', v'⟩ := hd
    by_cases h : k' = k
    · simp [setKey, h]
    · simp [setKey, h, ih]

theorem getKey_eq_none_of_not_mem {d : Dict} {k : String}
    (h : k ∉ d.map Prod.fst) : getKey d k = none := by
  induction d with
  | nil => rfl
  | cons hd tl ih =>
    obtain ⟨k', v'⟩ := hd
    simp only [List.map_cons, List.mem_cons] at h
    push_neg at h
    simp [getKey, Ne.symm h.1, ih h.2]

theorem hasKey_eq_false_iff {d : Dict} {k : String} :
    hasKey d k = false ↔ getKey d k = none := by
  unfold hasKey
  cases getKey d k <;> simp

/-- Well-formedness of the aggregator: `acc["web"]` is a dict that has a
`"results"` list.  The initial accumulator has it and every loop
operation preserves it. -/
def wfAgg (acc : Dict) : Prop :=
  ∃ rs : List JVal, webGet acc "results" = some (.arr rs)

theorem wfAgg_initialAgg : wfAgg initialAgg := ⟨[], rfl⟩

theorem wfAgg_elim {acc : Dict} (h : wfAgg acc) :
    ∃ (w : Dict) (rs : List JVal),
      getKey acc "web" = some (.obj w) ∧ getKey w "results" = some (.arr rs) := by
  obtain ⟨rs, h⟩ := h
  unfold webGet at h
  split at h
  · rename_i w heq
    exact ⟨w, rs, heq, h⟩
  · cases h

theorem aggResults_of_webGet {acc : Dict} {rs : List JVal}
    (h : webGet acc "results" = some (.arr rs)) : aggResults acc = rs := by
  unfold aggResults
  rw [h]

theorem webGet_setAggResults_results {acc : Dict} (h : wfAgg acc) (rs' : List JVal) :
    webGet (setAggResults acc rs') "results" = some (.arr rs') := by
  obtain ⟨w, rs, hw, hr⟩ := wfAgg_elim h
  unfold setAggResults webGet
  rw [hw]
  simp [getKey_setKey_self]

theorem wfAgg_setAggResults {acc : Dict} (h : wfAgg acc) (rs' : List JVal) :
    wfAgg (setAggResults acc rs') :=
  ⟨rs', webGet_setAggResults_results h rs'⟩

theorem aggResults_setAggResults {acc : Dict} (h : wfAgg acc) (rs' : List JVal) :
    aggResults (setAggResults acc rs') = rs' :=
  aggResults_of_webGet (webGet_setAggResults_results h rs')

theorem getKey_setAggResults_ne (acc : Dict) (rs' : List JVal) (k : String)
    (hk : k ≠ "web") : getKey (setAggResults acc rs') k = getKey acc k := by
  unfold setAggResults
  split
  · rw [getKey_setKey_ne _ _ _ _ hk]
  · rfl

theorem webGet_setAggResults_ne (acc : Dict) (rs' : List JVal) (k : String)
    (hk : k ≠ "results") : webGet (setAggResults acc rs') k = webGet acc k := by
  unfold setAggResults webGet
  cases hw : getKey acc "web" with
  | none => simp [hw]
  | some v =>
    cases v with
    | obj w => simp [hw, getKey_setKey_self, getKey_setKey_ne _ _ _ _ hk]
    | str s => simp [hw]
    | num n => simp [hw]
    | bool b => simp [hw]
    | null => simp [hw]
    | arr xs => simp [hw]

theorem setAggResults_setAggResults (acc : Dict) (rs1 rs2 : List JVal) :
    setAggResults (setAggResults acc rs1) rs2 = setAggResults acc rs2 := by
  unfold setAggResults
  cases hw : getKey acc "web" with
  | none => simp [hw]
  | some v =>
    cases v with
    | obj w => simp [hw, getKey_setKey_self, setKey_setKey]
    | str s => simp [hw]
    | num n => simp [hw]
    | bool b => simp [hw]
    | null => simp [hw]
    | arr xs => simp [hw]

theorem aggResults_eq_of_parts {acc w : Dict} {rs : List JVal}
    (hw : getKey acc "web" = some (.obj w)) (hr : getKey w "results" = some (.arr rs)) :
    aggResults acc = rs := by
  unfold aggResults webGet
  simp [hw, hr]

theorem setAggResults_self {acc : Dict} (h : wfAgg acc) :
    setAggResults acc (aggResults acc) = acc := by
  obtain ⟨w, rs, hw, hr⟩ := wfAgg_elim h
  have hag : aggResults acc = rs := aggResults_eq_of_parts hw hr
  unfold setAggResults
  simp only [hw, hag]
  rw [setKey_self w "results" (.arr rs) hr, setKey_self acc "web" (.obj w) hw]

/- copyTopMeta -/

theorem copyTopMeta_cons (a : Dict) (k' : String) (v' : JVal) (tl : Dict) :
    copyTopMeta a ((k', v') :: tl) =
      copyTopMeta (if k' == "web" then a else setKey a k' v') tl := rfl

theorem getKey_copyTopMeta_web (a pr : Dict) :
    getKey (copyTopMeta a pr) "web" = getKey a "web" := by
  induction pr generalizing a with
  | nil => rfl
  | cons hd tl ih =>
    obtain ⟨k', v'⟩ := hd
    rw [copyTopMeta_cons]
    by_cases h : k' = "web"
    · rw [if_pos (by simp [h])]
      exact ih a
    · rw [if_neg (by simp [h])]
      rw [ih (setKey a k' v')]
      exact getKey_setKey_ne a k' "web" v' (Ne.symm h)

theorem getKey_copyTopMeta_of_none {pr : Dict} {k : String}
    (h : getKey pr k = none) (a : Dict) :
    getKey (copyTopMeta a pr) k = getKey a k := by
  induction pr generalizing a with
  | nil => rfl
  | cons hd tl ih =>
    obtain ⟨k', v'⟩ := hd
    have hk' : k' ≠ k := by
      intro hh
      subst hh
      simp [getKey] at h
    have htl : getKey tl k = none := by
      simpa [getKey, hk'] using h
    rw [copyTopMeta_cons]
    by_cases hw : k' = "web"
    · rw [if_pos (by simp [hw])]
      exact ih htl a
    · rw [if_neg (by simp [hw])]
      rw [ih htl (setKey a k' v')]
      exact getKey_setKey_ne a k' k v' (Ne.symm hk')

theorem getKey_copyTopMeta_of_some {pr : Dict} {k : String} {v : JVal}
    (hnd : (pr.map Prod.fst).Nodup) (hk : k ≠ "web") (h : getKey pr k = some v) :
    ∀ a : Dict, getKey (copyTopMeta a pr) k = some v := by
  induction pr with
  | nil => cases h
  | cons hd tl ih =>
    obtain ⟨k', v'⟩ := hd
    intro a
    simp only [List.map_cons, List.nodup_cons] at hnd
    rw [copyTopMeta_cons]
    by_cases hkk : k' = k
    · subst hkk
      have hv : v' = v := by simpa [getKey] using h
      subst hv
      have htl : getKey tl k' = none :=
        getKey_eq_none_of_not_mem hnd.1
      rw [if_neg (by simp; intro hh; exact hk (hh ▸ rfl))]
      rw [getKey_copyTopMeta_of_none htl (setKey a k' v')]
      exact getKey_setKey_self a k' v'
    · have htl : getKey tl k = some v := by
        simpa [getKey, hkk] using h
      by_cases hw : k' = "web"
      · rw [if_pos (by simp [hw])]
        exact ih hnd.2 htl a
      · rw [if_neg (by simp [hw])]
        exact ih hnd.2 htl (setKey a k' v')

theorem webGet_copyTopMeta (a pr : Dict) (k : String) :
    webGet (copyTopMeta a pr) k = webGet a k := by
  unfold webGet
  rw [getKey_copyTopMeta_web]

theorem wfAgg_copyTopMeta {a : Dict} (h : wfAgg a) (pr : Dict) :
    wfAgg (copyTopMeta a pr) := by
  obtain ⟨rs, hr⟩ := h
  exact ⟨rs, by rw [webGet_copyTopMeta]; exact hr⟩

/- setWebKey and copyWebMeta -/

theorem getKey_setWebKey_ne (a : Dict) (kk : String) (vv : JVal) (k : String)
    (hk : k ≠ "web") : getKey (setWebKey a kk vv) k = getKey a k := by
  unfold setWebKey
  split
  · rw [getKey_setKey_ne _ _ _ _ hk]
  · rfl

theorem webGet_setWebKey_ne (a : Dict) (kk : String) (vv : JVal) (k : String)
    (hk : k ≠ kk) : webGet (setWebKey a kk vv) k = webGet a k := by
  unfold setWebKey webGet
  cases hw : getKey a "web" with
  | none => simp [hw]
  | some v =>
    cases v with
    | obj w => simp [hw, getKey_setKey_self, getKey_setKey_ne _ _ _ _ hk]
    | str s => simp [hw]
    | num n => simp [hw]
    | bool b => simp [hw]
    | null => simp [hw]
    | arr xs => simp [hw]

/-- The accumulator's `web` entry is a dict. -/
def hasWebObj (a : Dict) : Prop :=
  ∃ w : Dict, getKey a "web" = some (.obj w)

theorem webGet_setWebKey_self {a : Dict} (h : hasWebObj a) (kk : String) (vv : JVal) :
    webGet (setWebKey a kk vv) kk = some vv := by
  obtain ⟨w, hw⟩ := h
  unfold setWebKey webGet
  rw [hw]
  simp [getKey_setKey_self]

theorem hasWebObj_setWebKey {a : Dict} (h : hasWebObj a) (kk : String) (vv : JVal) :
    hasWebObj (setWebKey a kk vv) := by
  obtain ⟨w, hw⟩ := h
  unfold setWebKey
  rw [hw]
  exact ⟨setKey w kk vv, getKey_setKey_self a "web" _⟩

theorem copyWebMeta_cons (a : Dict) (k' : String) (v' : JVal) (tl : Dict) :
    copyWebMeta a ((k', v') :: tl) =
      copyWebMeta (if k' == "results" then a else setWebKey a k' v') tl := rfl

theorem getKey_copyWebMeta_top (a w0 : Dict) (k : String) (hk : k ≠ "web") :
    getKey (copyWebMeta a w0) k = getKey a k := by
  induction w0 generalizing a with
  | nil => rfl
  | cons hd tl ih =>
    obtain ⟨k', v'⟩ := hd
    rw [copyWebMeta_cons]
    by_cases h : k' = "results"
    · rw [if_pos (by simp [h])]
      exact ih a
    · rw [if_neg (by simp [h])]
      rw [ih (setWebKey a k' v')]
      exact getKey_setWebKey_ne a k' v' k hk

theorem webGet_copyWebMeta_results (a w0 : Dict) :
    webGet (copyWebMeta a w0) "results" = webGet a "results" := by
  induction w0 generalizing a with
  | nil => rfl
  | cons hd tl ih =>
    obtain ⟨k', v'⟩ := hd
    rw [copyWebMeta_cons]
    by_cases h : k' = "results"
    · rw [if_pos (by simp [h])]
      exact ih a
    · rw [if_neg (by simp [h])]
      rw [ih (setWebKey a k' v')]
      exact webGet_setWebKey_ne a k' v' "results" (Ne.symm h)

theorem webGet_copyWebMeta_of_none {w0 : Dict} {k : String}
    (h : getKey w0 k = none) (a : Dict) :
    webGet (copyWebMeta a w0) k = webGet a k := by
  induction w0 generalizing a with
  | nil => rfl
  | cons hd tl ih =>
    obtain ⟨k', v'⟩ := hd
    have hk' : k' ≠ k := by
      intro hh
      subst hh
      simp [getKey] at h
    have htl : getKey tl k = none := by
      simpa [getKey, hk'] using h
    rw [copyWebMeta_cons]
    by_cases hr : k' = "results"
    · rw [if_pos (by simp [hr])]
      exact ih htl a
    · rw [if_neg (by simp [hr])]
      rw [ih htl (setWebKey a k' v')]
      exact webGet_setWebKey_ne a k' v' k (Ne.symm hk')

theorem webGet_copyWebMeta_of_some {w0 : Dict} {k : String} {v : JVal}
    (hnd : (w0.map Prod.fst).Nodup) (hk : k ≠ "results") (h : getKey w0 k = some v) :
    ∀ a : Dict, hasWebObj a → webGet (copyWebMeta a w0) k = some v := by
  induction w0 with
  | nil => cases h
  | cons hd tl ih =>
    obtain ⟨k', v'⟩ := hd
    intro a hobj
    simp only [List.map_cons, List.nodup_cons] at hnd
    rw [copyWebMeta_cons]
    by_cases hkk : k' = k
    · subst hkk
      have hv : v' = v := by simpa [getKey] using h
      subst hv
      have htl : getKey tl k' = none := getKey_eq_none_of_not_mem hnd.1
      rw [if_neg (by simp; intro hh; exact hk (hh ▸ rfl))]
      rw [webGet_copyWebMeta_of_none htl (setWebKey a k' v')]
      exact webGet_setWebKey_self hobj k' v'
    · have htl : getKey tl k = some v := by
        simpa [getKey, hkk] using h
      by_cases hr : k' = "results"
      · rw [if_pos (by simp [hr])]
        exact ih hnd.2 htl a hobj
      · rw [if_neg (by simp [hr])]
        exact ih hnd.2 htl (setWebKey a k' v') (hasWebObj_setWebKey hobj k' v')

theorem wfAgg_copyWebMeta {a : Dict} (h : wfAgg a) (w0 : Dict) :
    wfAgg (copyWebMeta a w0) := by
  obtain ⟨rs, hr⟩ := h
  exact ⟨rs, by rw [webGet_copyWebMeta_results]; exact hr⟩

theorem aggResults_copyWebMeta (a w0 : Dict) :
    aggResults (copyWebMeta a w0) = aggResults a := by
  unfold aggResults
  rw [webGet_copyWebMeta_results]

/- The accumulator after a clean page 0 -/

/-- The value of `all_results` right after a clean page 0 whose envelope
`pr0` has `web` dict `prWeb0` with result list `rs0`: the items appended,
then the two metadata copies. -/
def accPage0 (pr0 prWeb0 : Dict) (rs0 : List JVal) : Dict :=
  copyWebMeta (copyTopMeta (setAggResults initialAgg rs0) pr0) prWeb0

theorem accPage0_def (pr0 prWeb0 : Dict) (rs0 : List JVal) :
    copyWebMeta (copyTopMeta (setAggResults initialAgg rs0) pr0) prWeb0 =
      accPage0 pr0 prWeb0 rs0 := rfl

theorem webGet_accPage0_results (pr0 prWeb0 : Dict) (rs0 : List JVal) :
    webGet (accPage0 pr0 prWeb0 rs0) "results" = some (.arr rs0) := by
  unfold accPage0
  rw [webGet_copyWebMeta_results, webGet_copyTopMeta]
  exact webGet_setAggResults_results wfAgg_initialAgg rs0

theorem wfAgg_accPage0 (pr0 prWeb0 : Dict) (rs0 : List JVal) :
    wfAgg (accPage0 pr0 prWeb0 rs0) :=
  ⟨rs0, webGet_accPage0_results pr0 prWeb0 rs0⟩

theorem aggResults_accPage0 (pr0 prWeb0 : Dict) (rs0 : List JVal) :
    aggResults (accPage0 pr0 prWeb0 rs0) = rs0 := by
  unfold aggResults
  rw [webGet_accPage0_results]

theorem getKey_accPage0_error {pr0 : Dict} (herr : getKey pr0 "error" = none)
    (prWeb0 : Dict) (rs0 : List JVal) :
    getKey (accPage0 pr0 prWeb0 rs0) "error" = none := by
  unfold accPage0
  rw [getKey_copyWebMeta_top _ _ _ (by decide)]
  rw [getKey_copyTopMeta_of_none herr]
  rw [getKey_setAggResults_ne _ _ _ (by decide)]
  rfl

/- ### Unfolding lemmas for one loop iteration -/

theorem searchLoop_zero (fetch : Nat → FetchOutcome) (maxR page : Nat)
    (acc : Dict) (reqs : List (Nat × Nat)) :
    searchLoop fetch maxR 0 page acc reqs = (acc, reqs) := rfl

theorem searchLoop_step_raised_zero {fetch : Nat → FetchOutcome} {msg : String}
    (h : fetch 0 = .raised msg) (maxR rem : Nat) (acc : Dict) (reqs : List (Nat × Nat)) :
    searchLoop fetch maxR (rem + 1) 0 acc reqs = (mkPaginationError msg, reqs ++ [(10, 0)]) := by
  simp [searchLoop, h]

theorem searchLoop_step_raised_pos {fetch : Nat → FetchOutcome} {page : Nat} {msg : String}
    (h : fetch page = .raised msg) (hp : page ≠ 0) (maxR rem : Nat)
    (acc : Dict) (reqs : List (Nat × Nat)) :
    searchLoop fetch maxR (rem + 1) page acc reqs = (acc, reqs ++ [(10, page)]) := by
  simp [searchLoop, h, hp]

theorem searchLoop_step_err_zero {fetch : Nat → FetchOutcome} {pr : Dict}
    (h : fetch 0 = .envelope pr) (he : hasKey pr "error" = true)
    (maxR rem : Nat) (acc : Dict) (reqs : List (Nat × Nat)) :
    searchLoop fetch maxR (rem + 1) 0 acc reqs = (pr, reqs ++ [(10, 0)]) := by
  simp [searchLoop, h, he]

theorem searchLoop_step_err_pos {fetch : Nat → FetchOutcome} {page : Nat} {pr : Dict}
    (h : fetch page = .envelope pr) (he : hasKey pr "error" = true) (hp : page ≠ 0)
    (maxR rem : Nat) (acc : Dict) (reqs : List (Nat × Nat)) :
    searchLoop fetch maxR (rem + 1) page acc reqs = (acc, reqs ++ [(10, page)]) := by
  simp [searchLoop, h, he, hp]

theorem searchLoop_step_ok {fetch : Nat → FetchOutcome} {page : Nat} {pr : Dict}
    (h : fetch page = .envelope pr) (he : hasKey pr "error" = false)
    (maxR rem : Nat) (acc : Dict) (reqs : List (Nat × Nat)) :
    searchLoop fetch maxR (rem + 1) page acc reqs =
      if maxR ≤ (aggResults (pageMerge acc pr page)).length then
        (setAggResults (pageMerge acc pr page)
          ((aggResults (pageMerge acc pr page)).take maxR), reqs ++ [(10, page)])
      else
        searchLoop fetch maxR rem (page + 1) (pageMerge acc pr page) (reqs ++ [(10, page)]) := by
  simp [searchLoop, h, he]

/- pageMerge lemmas -/

theorem pageMerge_clean_pos {pr prWeb : Dict} {newRs : List JVal}
    (hw : getKey pr "web" = some (.obj prWeb))
    (hr : getKey prWeb "results" = some (.arr newRs))
    {page : Nat} (hp : page ≠ 0) (acc : Dict) :
    pageMerge acc pr page = setAggResults acc (aggResults acc ++ newRs) := by
  simp [pageMerge, hw, hr, hp]

theorem pageMerge_clean_zero {pr prWeb : Dict} {newRs : List JVal}
    (hw : getKey pr "web" = some (.obj prWeb))
    (hr : getKey prWeb "results" = some (.arr newRs)) (acc : Dict) :
    pageMerge acc pr 0 =
      copyWebMeta (copyTopMeta (setAggResults acc (aggResults acc ++ newRs)) pr) prWeb := by
  simp [pageMerge, hw, hr]

theorem wfAgg_pageMerge {acc : Dict} (h : wfAgg acc) (pr : Dict) (page : Nat) :
    wfAgg (pageMerge acc pr page) := by
  unfold pageMerge
  split
  · split
    · split
      · exact wfAgg_copyWebMeta (wfAgg_copyTopMeta (wfAgg_setAggResults h _) _) _
      · exact wfAgg_setAggResults h _
    · exact h
  · exact h

theorem pageMerge_cases_pos {page : Nat} (hp : page ≠ 0) (acc pr : Dict) :
    pageMerge acc pr page = acc ∨
      ∃ l : List JVal, pageMerge acc pr page = setAggResults acc l := by
  unfold pageMerge
  split
  · split
    · rename_i newRs hr
      right
      refine ⟨aggResults acc ++ newRs, ?_⟩
      simp [hp]
    · exact Or.inl rfl
  · exact Or.inl rfl

/- ### One-iteration branch analysis -/

theorem searchLoop_succ_branches (fetch : Nat → FetchOutcome) (maxR rem page : Nat)
    (acc : Dict) (reqs : List (Nat × Nat)) (hwf : wfAgg acc) :
    ((searchLoop fetch maxR (rem + 1) page acc reqs).2 = reqs ++ [(10, page)] ∧
      (hasKey (searchLoop fetch maxR (rem + 1) page acc reqs).1 "error" = true ∨
       (searchLoop fetch maxR (rem + 1) page acc reqs).1 = acc ∨
       ∃ acc2 : Dict, wfAgg acc2 ∧ maxR ≤ (aggResults acc2).length ∧
         (searchLoop fetch maxR (rem + 1) page acc reqs).1 =
           setAggResults acc2 ((aggResults acc2).take maxR))) ∨
    (∃ acc2 : Dict, wfAgg acc2 ∧ (aggResults acc2).length < maxR ∧
       searchLoop fetch maxR (rem + 1) page acc reqs =
         searchLoop fetch maxR rem (page + 1) acc2 (reqs ++ [(10, page)])) := by
  cases hf : fetch page with
  | raised msg =>
    by_cases hp : page = 0
    · subst hp
      rw [searchLoop_step_raised_zero hf]
      exact Or.inl ⟨rfl, Or.inl (by simp [mkPaginationError, hasKey, getKey])⟩
    · rw [searchLoop_step_raised_pos hf hp]
      exact Or.inl ⟨rfl, Or.inr (Or.inl rfl)⟩
  | envelope pr =>
    by_cases he : hasKey pr "error" = true
    · by_cases hp : page = 0
      · subst hp
        rw [searchLoop_step_err_zero hf he]
        exact Or.inl ⟨rfl, Or.inl he⟩
      · rw [searchLoop_step_err_pos hf he hp]
        exact Or.inl ⟨rfl, Or.inr (Or.inl rfl)⟩
    · have he' : hasKey pr "error" = false := by simpa using he
      rw [searchLoop_step_ok hf he']
      have hwf2 : wfAgg (pageMerge acc pr page) := wfAgg_pageMerge hwf pr page
      by_cases hth : maxR ≤ (aggResults (pageMerge acc pr page)).length
      · rw [if_pos hth]
        exact Or.inl ⟨rfl, Or.inr (Or.inr ⟨pageMerge acc pr page, hwf2, hth, rfl⟩)⟩
      · rw [if_neg hth]
        exact Or.inr ⟨pageMerge acc pr page, hwf2, by omega, rfl⟩

/- ### Length invariant of the loop -/

theorem searchLoop_length_le (fetch : Nat → FetchOutcome) (maxR : Nat) :
    ∀ (rem page : Nat) (acc : Dict) (reqs : List (Nat × Nat)),
      wfAgg acc → (aggResults acc).length < maxR →
      hasKey (searchLoop fetch maxR rem page acc reqs).1 "error" = false →
      (aggResults (searchLoop fetch maxR rem page acc reqs).1).length ≤ maxR := by
  intro rem
  induction rem with
  | zero =>
    intro page acc reqs _ hlt _
    simpa [searchLoop_zero] using Nat.le_of_lt hlt
  | succ m ih =>
    intro page acc reqs hwf hlt hne
    rcases searchLoop_succ_branches fetch maxR m page acc reqs hwf with
      ⟨_, herr | hacc | ⟨acc2, hwf2, hth, hout⟩⟩ | ⟨acc2, hwf2, hlt2, heq⟩
    · simp [herr] at hne
    · rw [hacc]
      exact Nat.le_of_lt hlt
    · rw [hout, aggResults_setAggResults hwf2, List.length_take]
      omega
    · rw [heq] at hne ⊢
      exact ih (page + 1) acc2 (reqs ++ [(10, page)]) hwf2 hlt2 hne

/- ### Shape of the request trace -/

/-- The requests issued by `m` consecutive loop iterations starting at
`page`: `(10, page), (10, page+1), …`. -/
def reqsFrom : Nat → Nat → List (Nat × Nat)
  | _, 0 => []
  | page, m + 1 => (10, page) :: reqsFrom (page + 1) m

theorem reqsFrom_snoc : ∀ (m page : Nat),
    reqsFrom page (m + 1) = reqsFrom page m ++ [(10, page + m)] := by
  intro m
  induction m with
  | zero => intro page; simp [reqsFrom]
  | succ n ih =>
    intro page
    have h1 : reqsFrom page (n + 2) = (10, page) :: reqsFrom (page + 1) (n + 1) := rfl
    have h2 : reqsFrom page (n + 1) = (10, page) :: reqsFrom (page + 1) n := rfl
    rw [h1, ih (page + 1), h2]
    have h3 : page + 1 + n = page + (n + 1) := by omega
    simp [h3]

theorem pageReqs_eq_reqsFrom : ∀ k : Nat, pageReqs k = reqsFrom 0 k := by
  intro k
  induction k with
  | zero => rfl
  | succ n ih =>
    have h1 : pageReqs (n + 1) = pageReqs n ++ [(10, n)] := rfl
    rw [h1, ih, reqsFrom_snoc n 0]
    simp

theorem searchLoop_trace (fetch : Nat → FetchOutcome) (maxR : Nat) :
    ∀ (rem page : Nat) (acc : Dict) (reqs : List (Nat × Nat)), wfAgg acc →
      ∃ m : Nat, m ≤ rem ∧ (1 ≤ rem → 1 ≤ m) ∧
        (searchLoop fetch maxR rem page acc reqs).2 = reqs ++ reqsFrom page m := by
  intro rem
  induction rem with
  | zero =>
    intro page acc reqs _
    exact ⟨0, Nat.le_refl 0, by omega, by simp [searchLoop_zero, reqsFrom]⟩
  | succ m ih =>
    intro page acc reqs hwf
    rcases searchLoop_succ_branches fetch maxR m page acc reqs hwf with
      ⟨htr, _⟩ | ⟨acc2, hwf2, _, heq⟩
    · exact ⟨1, by omega, by omega, by simpa [reqsFrom] using htr⟩
    · obtain ⟨m', hm1, _, htr⟩ := ih (page + 1) acc2 (reqs ++ [(10, page)]) hwf2
      refine ⟨m' + 1, by omega, by omega, ?_⟩
      rw [heq, htr]
      simp [reqsFrom]

/- ### The loop state after a clean prefix of pages -/

theorem searchLoop_clean_run (fetch : Nat → FetchOutcome) (maxR : Nat)
    (pr prW : Nat → Dict) (rs : Nat → List JVal) :
    ∀ i : Nat, 1 ≤ i → i ≤ numPages maxR →
    (∀ j, j < i → fetch j = .envelope (pr j) ∧ hasKey (pr j) "error" = false ∧
       getKey (pr j) "web" = some (.obj (prW j)) ∧
       getKey (prW j) "results" = some (.arr (rs j))) →
    (∀ j, j < i → (concatRs rs (j + 1)).length < maxR) →
    searchLoop fetch maxR (numPages maxR) 0 initialAgg [] =
      searchLoop fetch maxR (numPages maxR - i) i
        (setAggResults (accPage0 (pr 0) (prW 0) (rs 0)) (concatRs rs i)) (pageReqs i) := by
  intro i
  induction i with
  | zero => intro h1; omega
  | succ n ih =>
    intro _ hle hclean hbelow
    by_cases hn : n = 0
    · subst hn
      simp only [Nat.zero_add]
      obtain ⟨h0f, h0e, h0w, h0r⟩ := hclean 0 (by omega)
      obtain ⟨m, hm⟩ : ∃ m, numPages maxR = m + 1 := ⟨numPages maxR - 1, by omega⟩
      rw [hm, searchLoop_step_ok h0f h0e, pageMerge_clean_zero h0w h0r]
      have hinit : aggResults initialAgg ++ rs 0 = rs 0 := by
        rw [show aggResults initialAgg = ([] : List JVal) from rfl]
        simp
      rw [hinit, accPage0_def, aggResults_accPage0]
      have hlt : (rs 0).length < maxR := by
        have h := hbelow 0 (by omega)
        simpa [concatRs] using h
      rw [if_neg (by omega)]
      have h2 : setAggResults (accPage0 (pr 0) (prW 0) (rs 0)) (concatRs rs 1) =
          accPage0 (pr 0) (prW 0) (rs 0) := by
        have hc : concatRs rs 1 = rs 0 := by simp [concatRs]
        have hself := setAggResults_self (wfAgg_accPage0 (pr 0) (prW 0) (rs 0))
        rw [aggResults_accPage0] at hself
        rw [hc, hself]
      have h3 : m + 1 - 1 = m := by omega
      rw [h2, h3]
      simp [pageReqs]
    · have hn1 : 1 ≤ n := by omega
      have ihe := ih hn1 (by omega) (fun j hj => hclean j (by omega))
        (fun j hj => hbelow j (by omega))
      rw [ihe]
      obtain ⟨hf, he, hw, hr⟩ := hclean n (by omega)
      obtain ⟨m, hm⟩ : ∃ m, numPages maxR - n = m + 1 := ⟨numPages maxR - n - 1, by omega⟩
      rw [hm, searchLoop_step_ok hf he, pageMerge_clean_pos hw hr hn]
      have hwfA := wfAgg_accPage0 (pr 0) (prW 0) (rs 0)
      rw [aggResults_setAggResults hwfA, setAggResults_setAggResults]
      have hcc : concatRs rs n ++ rs n = concatRs rs (n + 1) := rfl
      rw [hcc, aggResults_setAggResults hwfA]
      have hlt : (concatRs rs (n + 1)).length < maxR := hbelow n (by omega)
      rw [if_neg (by omega)]
      have h1 : numPages maxR - (n + 1) = m := by omega
      rw [h1]
      have h2 : pageReqs n ++ [(10, n)] = pageReqs (n + 1) := rfl
      rw [h2]

/- ### Claim C3 -/

/-- C3: if page 0 succeeds and pages `1 … i-1` succeed without reaching
the `max_results` threshold, and fetching page `i` fails (its envelope
has an `error` key, or the fetch raises), the aggregator stops at page
`i` — the request trace is exactly pages `0 … i` — and returns the
results accumulated from the earlier successful pages, in an envelope
with no top-level `error` field. -/
theorem c3_later_page_failure_partial (fetch : Nat → FetchOutcome) (maxR : Nat)
    (pr prW : Nat → Dict) (rs : Nat → List JVal) (i : Nat)
    (h1 : 1 ≤ i) (hi : i < numPages maxR)
    (hclean : ∀ j, j < i → fetch j = .envelope (pr j) ∧ hasKey (pr j) "error" = false ∧
       getKey (pr j) "web" = some (.obj (prW j)) ∧
       getKey (prW j) "results" = some (.arr (rs j)))
    (hbelow : ∀ j, j < i → (concatRs rs (j + 1)).length < maxR)
    (hfail : (∃ e : Dict, fetch i = .envelope e ∧ hasKey e "error" = true) ∨
             (∃ msg : String, fetch i = .raised msg)) :
    hasKey (search_with_pagination fetch maxR).1 "error" = false ∧
    aggResults (search_with_pagination fetch maxR).1 = concatRs rs i ∧
    (search_with_pagination fetch maxR).2 = pageReqs (i + 1) := by
  rw [search_with_pagination_def,
    searchLoop_clean_run fetch maxR pr prW rs i h1 (by omega) hclean hbelow]
  obtain ⟨m, hm⟩ : ∃ m, numPages maxR - i = m + 1 := ⟨numPages maxR - i - 1, by omega⟩
  rw [hm]
  have hi0 : i ≠ 0 := by omega
  have herr0 : getKey (pr 0) "error" = none :=
    hasKey_eq_false_iff.mp (hclean 0 (by omega)).2.1
  have hkey : getKey (setAggResults (accPage0 (pr 0) (prW 0) (rs 0)) (concatRs rs i))
      "error" = none := by
    rw [getKey_setAggResults_ne _ _ _ (by decide)]
    exact getKey_accPage0_error herr0 _ _
  have hagg : aggResults (setAggResults (accPage0 (pr 0) (prW 0) (rs 0)) (concatRs rs i))
      = concatRs rs i :=
    aggResults_setAggResults (wfAgg_accPage0 _ _ _) _
  rcases hfail with ⟨e, hef, hee⟩ | ⟨msg, hmf⟩
  · rw [searchLoop_step_err_pos hef hee hi0]
    exact ⟨hasKey_eq_false_iff.mpr hkey, hagg, rfl⟩
  · rw [searchLoop_step_raised_pos hmf hi0]
    exact ⟨hasKey_eq_false_iff.mpr hkey, hagg, rfl⟩

/- ### Claim C4 -/

/-- C4: every successful aggregation (returned envelope without an
`error` field) holds at most `max_results` items; and whenever the pages
through `k` are clean and page `k` brings the accumulated count to
`≥ max_results` for the first time, the returned list is the accumulation
truncated to exactly `max_results` items and no page after `k` is
fetched. -/
theorem c4_result_count_bounded (fetch : Nat → FetchOutcome) (maxR : Nat) :
    (hasKey (search_with_pagination fetch maxR).1 "error" = false →
      (aggResults (search_with_pagination fetch maxR).1).length ≤ maxR) ∧
    (∀ (k : Nat) (pr prW : Nat → Dict) (rs : Nat → List JVal),
      k < numPages maxR →
      (∀ j, j ≤ k → fetch j = .envelope (pr j) ∧ hasKey (pr j) "error" = false ∧
        getKey (pr j) "web" = some (.obj (prW j)) ∧
        getKey (prW j) "results" = some (.arr (rs j))) →
      (∀ j, j < k → (concatRs rs (j + 1)).length < maxR) →
      maxR ≤ (concatRs rs (k + 1)).length →
      aggResults (search_with_pagination fetch maxR).1 = (concatRs rs (k + 1)).take maxR ∧
      (aggResults (search_with_pagination fetch maxR).1).length = maxR ∧
      (search_with_pagination fetch maxR).2 = pageReqs (k + 1)) := by
  constructor
  · intro hne
    rw [search_with_pagination_def] at hne ⊢
    by_cases hmax : maxR = 0
    · subst hmax
      have h0 : numPages 0 = 0 := rfl
      rw [h0, searchLoop_zero]
      simp [show aggResults initialAgg = ([] : List JVal) from rfl]
    · exact searchLoop_length_le fetch maxR (numPages maxR) 0 initialAgg []
        wfAgg_initialAgg
        (by
          rw [show aggResults initialAgg = ([] : List JVal) from rfl]
          simpa using Nat.pos_of_ne_zero hmax)
        hne
  · intro k pr prW rs hk hclean hbelow hcross
    rw [search_with_pagination_def]
    by_cases hk0 : k = 0
    · subst hk0
      simp only [Nat.zero_add] at hcross ⊢
      obtain ⟨h0f, h0e, h0w, h0r⟩ := hclean 0 (by omega)
      obtain ⟨m, hm⟩ : ∃ m, numPages maxR = m + 1 := ⟨numPages maxR - 1, by omega⟩
      rw [hm, searchLoop_step_ok h0f h0e, pageMerge_clean_zero h0w h0r]
      have hinit : aggResults initialAgg ++ rs 0 = rs 0 := by
        rw [show aggResults initialAgg = ([] : List JVal) from rfl]
        simp
      rw [hinit, accPage0_def, aggResults_accPage0]
      have hc1 : concatRs rs 1 = rs 0 := by simp [concatRs]
      rw [hc1] at hcross
      rw [if_pos hcross]
      refine ⟨?_, ?_, ?_⟩
      · rw [show (setAggResults (accPage0 (pr 0) (prW 0) (rs 0)) ((rs 0).take maxR),
            ([] : List (Nat × Nat)) ++ [(10, 0)]).1
            = setAggResults (accPage0 (pr 0) (prW 0) (rs 0)) ((rs 0).take maxR) from rfl]
        rw [aggResults_setAggResults (wfAgg_accPage0 _ _ _), hc1]
      · rw [show (setAggResults (accPage0 (pr 0) (prW 0) (rs 0)) ((rs 0).take maxR),
            ([] : List (Nat × Nat)) ++ [(10, 0)]).1
            = setAggResults (accPage0 (pr 0) (prW 0) (rs 0)) ((rs 0).take maxR) from rfl]
        rw [aggResults_setAggResults (wfAgg_accPage0 _ _ _), List.length_take]
        omega
      · simp [pageReqs]
    · have hk1 : 1 ≤ k := by omega
      rw [searchLoop_clean_run fetch maxR pr prW rs k hk1 (by omega)
        (fun j hj => hclean j (by omega)) hbelow]
      obtain ⟨m, hm⟩ : ∃ m, numPages maxR - k = m + 1 := ⟨numPages maxR - k - 1, by omega⟩
      obtain ⟨hf, he, hw, hr⟩ := hclean k (by omega)
      rw [hm, searchLoop_step_ok hf he, pageMerge_clean_pos hw hr hk0]
      have hwfA := wfAgg_accPage0 (pr 0) (prW 0) (rs 0)
      rw [aggResults_setAggResults hwfA, setAggResults_setAggResults]
      have hcc : concatRs rs k ++ rs k = concatRs rs (k + 1) := rfl
      rw [hcc, aggResults_setAggResults hwfA, if_pos hcross]
      refine ⟨?_, ?_, ?_⟩
      · rw [show (setAggResults (setAggResults (accPage0 (pr 0) (prW 0) (rs 0))
              (concatRs rs (k + 1))) ((concatRs rs (k + 1)).take maxR),
            pageReqs k ++ [(10, k)]).1
            = setAggResults (setAggResults (accPage0 (pr 0) (prW 0) (rs 0))
              (concatRs rs (k + 1))) ((concatRs rs (k + 1)).take maxR) from rfl]
        rw [setAggResults_setAggResults, aggResults_setAggResults hwfA]
      · rw [show (setAggResults (setAggResults (accPage0 (pr 0) (prW 0) (rs 0))
              (concatRs rs (k + 1))) ((concatRs rs (k + 1)).take maxR),
            pageReqs k ++ [(10, k)]).1
            = setAggResults (setAggResults (accPage0 (pr 0) (prW 0) (rs 0))
              (concatRs rs (k + 1))) ((concatRs rs (k + 1)).take maxR) from rfl]
        rw [setAggResults_setAggResults, aggResults_setAggResults hwfA, List.length_take]
        omega
      · rfl

/- ### Claim C6 -/

/-- C6: with `max_results ≥ 1`, the trace of fetches is always a prefix
of `(count, offset) = (10, 0), (10, 1), …` — so page `i` is fetched with
`count = 10` and `offset = i`, the page index, not `i × 10` — of length
between 1 and `ceil(max_results / 10)`; and if every page in the budget
is clean and the accumulated count stays below `max_results` before the
last page, exactly `ceil(max_results / 10)` pages are fetched. -/
theorem c6_page_schedule (fetch : Nat → FetchOutcome) (maxR : Nat) (hmax : 1 ≤ maxR) :
    (∃ k : Nat, 1 ≤ k ∧ k ≤ numPages maxR ∧
      (search_with_pagination fetch maxR).2 = pageReqs k) ∧
    (∀ (pr prW : Nat → Dict) (rs : Nat → List JVal),
      (∀ j, j < numPages maxR → fetch j = .envelope (pr j) ∧
        hasKey (pr j) "error" = false ∧
        getKey (pr j) "web" = some (.obj (prW j)) ∧
        getKey (prW j) "results" = some (.arr (rs j))) →
      (∀ j, j + 1 < numPages maxR → (concatRs rs (j + 1)).length < maxR) →
      (search_with_pagination fetch maxR).2 = pageReqs (numPages maxR)) := by
  have hnp : 1 ≤ numPages maxR := by
    unfold numPages
    omega
  constructor
  · obtain ⟨m, hm1, hm2, htr⟩ :=
      searchLoop_trace fetch maxR (numPages maxR) 0 initialAgg [] wfAgg_initialAgg
    refine ⟨m, hm2 hnp, hm1, ?_⟩
    rw [search_with_pagination_def, htr, pageReqs_eq_reqsFrom]
    simp
  · intro pr prW rs hclean hbelow
    rw [search_with_pagination_def]
    by_cases hone : numPages maxR = 1
    · rw [hone]
      obtain ⟨h0f, h0e, _, _⟩ := hclean 0 (by omega)
      rw [searchLoop_step_ok h0f h0e]
      split
      · simp [pageReqs]
      · rw [searchLoop_zero]
        simp [pageReqs]
    · have h2 : 2 ≤ numPages maxR := by omega
      have hn1 : 1 ≤ numPages maxR - 1 := by omega
      rw [searchLoop_clean_run fetch maxR pr prW rs (numPages maxR - 1) hn1 (by omega)
        (fun j hj => hclean j (by omega)) (fun j hj => hbelow j (by omega))]
      have hrem : numPages maxR - (numPages maxR - 1) = 0 + 1 := by omega
      rw [hrem]
      obtain ⟨hf, he, _, _⟩ := hclean (numPages maxR - 1) (by omega)
      rw [searchLoop_step_ok hf he]
      have hlast : pageReqs (numPages maxR - 1) ++ [(10, numPages maxR - 1)]
          = pageReqs (numPages maxR) := by
        obtain ⟨t, ht⟩ : ∃ t, numPages maxR = t + 1 := ⟨numPages maxR - 1, by omega⟩
        rw [ht]
        simp [pageReqs]
      split
      · exact hlast
      · rw [searchLoop_zero]
        exact hlast

/- ### Claim C5: metadata provenance -/

/-- Every top-level key of `acc` other than `web` carries the value it
has in `pr0` (page 0's envelope). -/
def topFrom (pr0 acc : Dict) : Prop :=
  ∀ k : String, k ≠ "web" → (getKey acc k).isSome = true → getKey acc k = getKey pr0 k

/-- Every key of `acc`'s `web` object other than `results` carries the
value it has in `w0` (page 0's `web` object). -/
def webFrom (w0 acc : Dict) : Prop :=
  ∀ k : String, k ≠ "results" → (webGet acc k).isSome = true → webGet acc k = getKey w0 k

/-- The `web` object of page 0's envelope, when there is one. -/
def webObjOf (pr : Dict) : Dict :=
  match getKey pr "web" with
  | some (.obj w) => w
  | _ => []

theorem getKey_initialAgg_ne {k : String} (hk : k ≠ "web") :
    getKey initialAgg k = none := by
  simp [initialAgg, getKey, Ne.symm hk]

theorem webGet_initialAgg_ne {k : String} (hk : k ≠ "results") :
    webGet initialAgg k = none := by
  simp [webGet, initialAgg, getKey, Ne.symm hk]

theorem topFrom_initialAgg (pr0 : Dict) : topFrom pr0 initialAgg := by
  intro k hk hs
  rw [getKey_initialAgg_ne hk] at hs
  cases hs

theorem webFrom_initialAgg (w0 : Dict) : webFrom w0 initialAgg := by
  intro k hk hs
  rw [webGet_initialAgg_ne hk] at hs
  cases hs

theorem topFrom_setAggResults {pr0 acc : Dict} (h : topFrom pr0 acc) (l : List JVal) :
    topFrom pr0 (setAggResults acc l) := by
  intro k hk hs
  rw [getKey_setAggResults_ne _ _ _ hk] at hs ⊢
  exact h k hk hs

theorem webFrom_setAggResults {w0 acc : Dict} (h : webFrom w0 acc) (l : List JVal) :
    webFrom w0 (setAggResults acc l) := by
  intro k hk hs
  rw [webGet_setAggResults_ne _ _ _ hk] at hs ⊢
  exact h k hk hs

theorem hasWebObj_of_wfAgg {a : Dict} (h : wfAgg a) : hasWebObj a := by
  obtain ⟨w, _, hw, _⟩ := wfAgg_elim h
  exact ⟨w, hw⟩

theorem topFrom_accPage0 {pr0 : Dict} (hnd : (pr0.map Prod.fst).Nodup)
    (prWeb0 : Dict) (rs0 : List JVal) : topFrom pr0 (accPage0 pr0 prWeb0 rs0) := by
  intro k hk hs
  unfold accPage0 at hs ⊢
  rw [getKey_copyWebMeta_top _ _ _ hk] at hs ⊢
  cases hpk : getKey pr0 k with
  | none =>
    rw [getKey_copyTopMeta_of_none hpk] at hs
    rw [getKey_setAggResults_ne _ _ _ hk] at hs
    rw [getKey_initialAgg_ne hk] at hs
    cases hs
  | some v =>
    rw [getKey_copyTopMeta_of_some hnd hk hpk]

theorem webFrom_accPage0 {pr0 prWeb0 : Dict} (hnd : (prWeb0.map Prod.fst).Nodup)
    (rs0 : List JVal) : webFrom prWeb0 (accPage0 pr0 prWeb0 rs0) := by
  intro k hk hs
  unfold accPage0 at hs ⊢
  cases hpk : getKey prWeb0 k with
  | none =>
    rw [webGet_copyWebMeta_of_none hpk] at hs
    rw [webGet_copyTopMeta] at hs
    rw [webGet_setAggResults_ne _ _ _ hk] at hs
    rw [webGet_initialAgg_ne hk] at hs
    cases hs
  | some v =>
    have hobj : hasWebObj (copyTopMeta (setAggResults initialAgg rs0) pr0) :=
      hasWebObj_of_wfAgg
        (wfAgg_copyTopMeta (wfAgg_setAggResults wfAgg_initialAgg rs0) pr0)
    rw [webGet_copyWebMeta_of_some hnd hk hpk _ hobj]

theorem topFrom_pageMerge0 {pr0 : Dict} (hnd : (pr0.map Prod.fst).Nodup) :
    topFrom pr0 (pageMerge initialAgg pr0 0) := by
  unfold pageMerge
  split
  · rename_i prWeb0 hw
    split
    · rename_i rs0 hr
      show topFrom pr0 (copyWebMeta (copyTopMeta
        (setAggResults initialAgg (aggResults initialAgg ++ rs0)) pr0) prWeb0)
      have hinit : aggResults initialAgg ++ rs0 = rs0 := by
        rw [show aggResults initialAgg = ([] : List JVal) from rfl]
        simp
      rw [hinit, accPage0_def]
      exact topFrom_accPage0 hnd prWeb0 rs0
    · exact topFrom_initialAgg pr0
  · exact topFrom_initialAgg pr0

theorem webFrom_pageMerge0 {pr0 : Dict} (hnd : ((webObjOf pr0).map Prod.fst).Nodup) :
    webFrom (webObjOf pr0) (pageMerge initialAgg pr0 0) := by
  unfold pageMerge
  split
  · rename_i prWeb0 hw
    have hwo : webObjOf pr0 = prWeb0 := by
      simp [webObjOf, hw]
    split
    · rename_i rs0 hr
      show webFrom (webObjOf pr0) (copyWebMeta (copyTopMeta
        (setAggResults initialAgg (aggResults initialAgg ++ rs0)) pr0) prWeb0)
      have hinit : aggResults initialAgg ++ rs0 = rs0 := by
        rw [show aggResults initialAgg = ([] : List JVal) from rfl]
        simp
      rw [hinit, accPage0_def, hwo]
      exact webFrom_accPage0 (hwo ▸ hnd) rs0
    · exact webFrom_initialAgg _
  · exact webFrom_initialAgg _

theorem searchLoop_meta_from_page0 (fetch : Nat → FetchOutcome) (maxR : Nat)
    (pr0 w0 : Dict) :
    ∀ (rem page : Nat) (acc : Dict) (reqs : List (Nat × Nat)),
      1 ≤ page → topFrom pr0 acc → webFrom w0 acc →
      topFrom pr0 (searchLoop fetch maxR rem page acc reqs).1 ∧
      webFrom w0 (searchLoop fetch maxR rem page acc reqs).1 := by
  intro rem
  induction rem with
  | zero =>
    intro page acc reqs _ ht hwb
    rw [searchLoop_zero]
    exact ⟨ht, hwb⟩
  | succ m ih =>
    intro page acc reqs hp ht hwb
    cases hf : fetch page with
    | raised msg =>
      rw [searchLoop_step_raised_pos hf (by omega)]
      exact ⟨ht, hwb⟩
    | envelope pr =>
      by_cases he : hasKey pr "error" = true
      · rw [searchLoop_step_err_pos hf he (by omega)]
        exact ⟨ht, hwb⟩
      · have he' : hasKey pr "error" = false := by simpa using he
        rw [searchLoop_step_ok hf he']
        have hmerge : topFrom pr0 (pageMerge acc pr page) ∧
            webFrom w0 (pageMerge acc pr page) := by
          rcases pageMerge_cases_pos (by omega : page ≠ 0) acc pr with hq | ⟨l, hq⟩
          · rw [hq]; exact ⟨ht, hwb⟩
          · rw [hq]; exact ⟨topFrom_setAggResults ht l, webFrom_setAggResults hwb l⟩
        split
        · exact ⟨topFrom_setAggResults hmerge.1 _, webFrom_setAggResults hmerge.2 _⟩
        · exact ih (page + 1) (pageMerge acc pr page) (reqs ++ [(10, page)]) (by omega)
            hmerge.1 hmerge.2

/-- C5: for every aggregation whose page 0 succeeds (its envelope `pr0`
carries no `error` key), every non-`web` top-level key present in the
returned envelope carries exactly `pr0`'s value for it, and every
non-`results` key of the returned `web` object carries exactly the value
of `pr0`'s `web` object for it — so all metadata comes from page 0 and
only from page 0, and later pages contribute only result items.  (The
`Nodup` hypotheses state that page 0's envelope is a Python dict: one
binding per key.) -/
theorem c5_metadata_only_from_page0 (fetch : Nat → FetchOutcome) (maxR : Nat)
    (pr0 : Dict) (h0 : fetch 0 = .envelope pr0) (herr : hasKey pr0 "error" = false)
    (hnd1 : (pr0.map Prod.fst).Nodup) (hnd2 : ((webObjOf pr0).map Prod.fst).Nodup) :
    topFrom pr0 (search_with_pagination fetch maxR).1 ∧
    webFrom (webObjOf pr0) (search_with_pagination fetch maxR).1 := by
  rw [search_with_pagination_def]
  cases hnp : numPages maxR with
  | zero =>
    rw [searchLoop_zero]
    exact ⟨topFrom_initialAgg pr0, webFrom_initialAgg _⟩
  | succ m =>
    rw [searchLoop_step_ok h0 herr]
    have hmerge : topFrom pr0 (pageMerge initialAgg pr0 0) ∧
        webFrom (webObjOf pr0) (pageMerge initialAgg pr0 0) :=
      ⟨topFrom_pageMerge0 hnd1, webFrom_pageMerge0 hnd2⟩
    split
    · exact ⟨topFrom_setAggResults hmerge.1 _, webFrom_setAggResults hmerge.2 _⟩
    · exact searchLoop_meta_from_page0 fetch maxR pr0 (webObjOf pr0) m 1
        (pageMerge initialAgg pr0 0) ([] ++ [(10, 0)]) (by omega) hmerge.1 hmerge.2

/- ### Concrete data for the aggregator witnesses -/

def demoWeb : Dict := [("results", JVal.arr [JVal.null]), ("family", JVal.bool true)]

def demoPage : Dict := [("query", JVal.str "lean"), ("web", JVal.obj demoWeb)]

def errPage : Dict :=
  [("error", JVal.str "rate limited"), ("web", JVal.obj [("results", JVal.arr [])])]

/-- A fetch schedule whose page 0 is clean and whose later pages fail. -/
def demoFetchFail1 : Nat → FetchOutcome :=
  fun n => if n = 0 then .envelope demoPage else .envelope errPage

/-- A fetch schedule delivering the same clean page for every index. -/
def demoFetchClean : Nat → FetchOutcome := fun _ => .envelope demoPage

def demoBigWeb : Dict := [("results", JVal.arr (List.replicate 10 JVal.null))]

def demoBigPage : Dict := [("web", JVal.obj demoBigWeb)]

/-- A fetch schedule delivering a full page of 10 results every time. -/
def demoFetchBig : Nat → FetchOutcome := fun _ => .envelope demoBigPage

/-- Concrete instantiation of `c3_later_page_failure_partial`: page 0
delivers one result, page 1 returns an error envelope; the aggregator
returns the one result, error-free, having fetched exactly pages 0, 1. -/
theorem c3_later_page_failure_partial_witness :
    hasKey (search_with_pagination demoFetchFail1 30).1 "error" = false ∧
    aggResults (search_with_pagination demoFetchFail1 30).1 = [JVal.null] ∧
    (search_with_pagination demoFetchFail1 30).2 = pageReqs 2 :=
  c3_later_page_failure_partial demoFetchFail1 30 (fun _ => demoPage) (fun _ => demoWeb)
    (fun _ => [JVal.null]) 1 (by decide) (by decide)
    (fun j hj => by
      have hj0 : j = 0 := by omega
      subst hj0
      exact ⟨rfl, rfl, rfl, rfl⟩)
    (fun j hj => by
      have hj0 : j = 0 := by omega
      subst hj0
      decide)
    (Or.inl ⟨errPage, rfl, rfl⟩)

/-- Concrete instantiation of `c4_result_count_bounded`: with
`max_results = 1` and a clean page of one item, the result is exactly one
item and only page 0 is fetched. -/
theorem c4_result_count_bounded_witness :
    (aggResults (search_with_pagination demoFetchClean 1).1).length ≤ 1 ∧
    (aggResults (search_with_pagination demoFetchClean 1).1 = [JVal.null] ∧
     (aggResults (search_with_pagination demoFetchClean 1).1).length = 1 ∧
     (search_with_pagination demoFetchClean 1).2 = pageReqs 1) :=
  ⟨(c4_result_count_bounded demoFetchClean 1).1 rfl,
   (c4_result_count_bounded demoFetchClean 1).2 0 (fun _ => demoPage) (fun _ => demoWeb)
     (fun _ => [JVal.null]) (by decide)
     (fun j hj => by
       have hj0 : j = 0 := by omega
       subst hj0
       exact ⟨rfl, rfl, rfl, rfl⟩)
     (fun j hj => absurd hj (by omega))
     (by decide)⟩

/-- Concrete instantiation of `c5_metadata_only_from_page0` at the
two-page schedule whose page 0 is `demoPage`. -/
theorem c5_metadata_only_from_page0_witness :
    topFrom demoPage (search_with_pagination demoFetchFail1 30).1 ∧
    webFrom (webObjOf demoPage) (search_with_pagination demoFetchFail1 30).1 :=
  c5_metadata_only_from_page0 demoFetchFail1 30 demoPage rfl rfl (by decide) (by decide)

/-- Concrete instantiation of `c6_page_schedule`: with `max_results = 15`
and full pages of 10 clean results, both pages of the budget
`ceil(15/10) = 2` are fetched, at offsets 0 and 1 with count 10. -/
theorem c6_page_schedule_witness :
    (∃ k : Nat, 1 ≤ k ∧ k ≤ numPages 15 ∧
      (search_with_pagination demoFetchBig 15).2 = pageReqs k) ∧
    (search_with_pagination demoFetchBig 15).2 = pageReqs 2 :=
  ⟨(c6_page_schedule demoFetchBig 15 (by decide)).1,
   (c6_page_schedule demoFetchBig 15 (by decide)).2 (fun _ => demoBigPage)
     (fun _ => demoBigWeb) (fun _ => List.replicate 10 JVal.null)
     (fun j hj => ⟨rfl, rfl, rfl, rfl⟩)
     (fun j hj => by
       have h2 : numPages 15 = 2 := by decide
       rw [h2] at hj
       have hj0 : j = 0 := by omega
       subst hj0
       decide)⟩

end Archon
